import Mathlib

/-! # Vending machine FSM (`main4.cpp`)

A shallow embedding of the soda vending machine of `main4.cpp`: the two lookup
tables, the `StateInstructions` engine, the `SodaLogger` linked list, the
terminal handler and the body of the loop of `main`, followed by theorems about
them.

Conventions of the embedding.

* The three C++ enums are inductive types; `toNat` gives the enumerator value
  that the source uses as an array index.
* `fsm_table` and `action_table` are lists of rows, written cell for cell as in
  the source. A lookup `table[row][col]` is `table_at`, which is `none` when
  either index is outside the array, so `insert_command` returns an `Option`:
  `none` stands for an out-of-bounds access.
* `cout` is the list of chunks written so far, one per `endl`; `cin` is the
  list of the results of the successive `cin >> input` attempts (`none` for
  text that is not an integer).
* The C library clock is a parameter: `ClockAndCalendar.datetime k` is the text
  that the `k`-th call of `get_current_datetime` formats.
-/

namespace VendingMachine

/-! ## Enums and tables (lines 10-34) -/

/-- The enum `States` (line 10). -/
inductive States where
  | S000 | S025 | S050 | S075 | S100 | S125 | S150
  deriving DecidableEq, Repr, Fintype

/-- The enum `Inputs` (line 11), `NADA_INPUT = 0`. -/
inductive Inputs where
  | NADA_INPUT | M025 | M050 | M100 | DEV | MEET | ETIRPS | LOG_INPUT
  deriving DecidableEq, Repr, Fintype

/-- The enum `Action` (line 12). -/
inductive Action where
  | NO_ACTION | D025 | D050 | D075 | D100 | D125 | D150 | LMEET | LETIRPS
  deriving DecidableEq, Repr, Fintype

open States Inputs Action

/-- Enumerator value of a state, used as the row index of both tables. -/
def States.toNat : States → Nat
  | S000 => 0
  | S025 => 1
  | S050 => 2
  | S075 => 3
  | S100 => 4
  | S125 => 5
  | S150 => 6

/-- Enumerator value of an input, used as the column index of both tables. -/
def Inputs.toNat : Inputs → Nat
  | NADA_INPUT => 0
  | M025 => 1
  | M050 => 2
  | M100 => 3
  | DEV => 4
  | MEET => 5
  | ETIRPS => 6
  | LOG_INPUT => 7

/-- State transition table (lines 15-23): one row per current state, one column
per input, the cell is the next state. -/
def fsm_table : List (List States) :=
  [ [S000, S025, S050, S100, S000, S000, S000, S000],   -- S000 state
    [S025, S050, S075, S125, S000, S025, S025, S025],   -- S025 state
    [S050, S075, S100, S150, S000, S050, S050, S050],   -- S050 state
    [S075, S100, S125, S150, S000, S075, S075, S075],   -- S075 state
    [S100, S125, S150, S150, S000, S100, S100, S100],   -- S100 state
    [S125, S150, S150, S150, S000, S125, S125, S125],   -- S125 state
    [S150, S150, S150, S150, S000, S000, S000, S150] ]  -- S150 state

/-- Action table (lines 26-34): one row per current state, one column per
input, the cell is the action taken. -/
def action_table : List (List Action) :=
  [ [NO_ACTION, NO_ACTION, NO_ACTION, NO_ACTION, NO_ACTION, NO_ACTION, NO_ACTION, NO_ACTION],  -- S000
    [NO_ACTION, NO_ACTION, NO_ACTION, NO_ACTION, D025, NO_ACTION, NO_ACTION, NO_ACTION],       -- S025
    [NO_ACTION, NO_ACTION, NO_ACTION, NO_ACTION, D050, NO_ACTION, NO_ACTION, NO_ACTION],       -- S050
    [NO_ACTION, NO_ACTION, NO_ACTION, D050, D075, NO_ACTION, NO_ACTION, NO_ACTION],            -- S075
    [NO_ACTION, NO_ACTION, NO_ACTION, D050, D100, NO_ACTION, NO_ACTION, NO_ACTION],            -- S100
    [NO_ACTION, NO_ACTION, D025, D100, D125, NO_ACTION, NO_ACTION, NO_ACTION],                 -- S125
    [NO_ACTION, D025, D050, D100, D150, LMEET, LETIRPS, NO_ACTION] ]                           -- S150

/-- The array access `table[row][col]`; `none` when an index is out of bounds. -/
def table_at {α : Type} (table : List (List α)) (row col : Nat) : Option α :=
  match table[row]? with
  | none => none
  | some cells => cells[col]?

/-! ## StateInstructions (lines 182-227) -/

/-- The class `StateInstructions`: its only member is the current state. -/
structure StateInstructions where
  current_state : States
  deriving DecidableEq, Repr

/-- Method `insert_command` (lines 191-200): the updated object and the
returned pair (next state, action). -/
def StateInstructions.insert_command (self : StateInstructions) (input : Inputs) :
    Option (StateInstructions × (States × Action)) :=
  if input = LOG_INPUT then
    -- Stay in the current state if LOG_INPUT is selected
    some (self, (self.current_state, NO_ACTION))
  else
    match table_at fsm_table self.current_state.toNat input.toNat with
    | none => none
    | some next_state =>
      match table_at action_table self.current_state.toNat input.toNat with
      | none => none
      | some action_taken =>
        some ({ current_state := next_state }, (next_state, action_taken))

/-- Method `get_current_state` (lines 202-204). -/
def StateInstructions.get_current_state (self : StateInstructions) : States :=
  self.current_state

/-- Method `get_current_money` (lines 207-226). The `default` branch of the
source is not reachable from an enumerator and has no counterpart here. -/
def StateInstructions.get_current_money (self : StateInstructions) : Int :=
  match self.current_state with
  | S000 => 0
  | S025 => 25
  | S050 => 50
  | S075 => 75
  | S100 => 100
  | S125 => 125
  | S150 => 150

/-- Function `state_to_string` (lines 230-249). -/
def state_to_string (state : States) : String :=
  match state with
  | S000 => "S000"
  | S025 => "S025"
  | S050 => "S050"
  | S075 => "S075"
  | S100 => "S100"
  | S125 => "S125"
  | S150 => "S150"

/-! ## Clock, logger and terminal handler (lines 37-179) -/

/-- The class `ClockAndCalendar`; `datetime k` is the formatted reading of the
system clock at the `k`-th call, `calls` counts the calls made so far. -/
structure ClockAndCalendar where
  datetime : Nat → String
  calls : Nat

/-- Method `get_current_datetime` (lines 39-47). -/
def ClockAndCalendar.get_current_datetime (self : ClockAndCalendar) :
    String × ClockAndCalendar :=
  (self.datetime self.calls, { datetime := self.datetime, calls := self.calls + 1 })

/-- The class `SodaLogger`: `head` is the linked list read from its head node. -/
structure SodaLogger where
  head : List String
  deriving DecidableEq, Repr

/-- Constructor `SodaLogger()` (line 70). -/
def SodaLogger.new : SodaLogger :=
  { head := [] }

/-- Method `add_entry` (lines 82-86): the new node becomes the head. -/
def SodaLogger.add_entry (self : SodaLogger) (soda_name : String) : SodaLogger :=
  { head := soda_name :: self.head }

/-- The `while` loop of `display_log` (lines 95-98). -/
def SodaLogger.display_nodes : List String → List String → List String
  | [], cout => cout
  | soda_name :: next, cout => SodaLogger.display_nodes next (cout ++ ["- " ++ soda_name])

/-- Method `display_log` (lines 88-99), as a transformer of `cout`. -/
def SodaLogger.display_log (self : SodaLogger) (cout : List String) : List String :=
  let cout1 := cout ++ ["\nSoda Purchase Log:"]
  match self.head with
  | [] => cout1 ++ ["No sodas were purchased."]
  | current => SodaLogger.display_nodes current cout1

/-- The class `TerminalIOHandler`. -/
structure TerminalIOHandler where
  soda_logger : SodaLogger
  clock : ClockAndCalendar

/-- Method `display_message` (lines 172-174). -/
def TerminalIOHandler.display_message (self : TerminalIOHandler) (cout : List String)
    (message : String) : TerminalIOHandler × List String :=
  let r := self.clock.get_current_datetime
  ({ soda_logger := self.soda_logger, clock := r.2 }, cout ++ [r.1 ++ " - " ++ message])

/-- Method `execute_action` (lines 138-170). -/
def TerminalIOHandler.execute_action (self : TerminalIOHandler) (cout : List String)
    (action : Action) : TerminalIOHandler × List String :=
  match action with
  | D025 => self.display_message cout "Dispensing $0.25"
  | D050 => self.display_message cout "Dispensing $0.50"
  | D075 => self.display_message cout "Dispensing $0.75"
  | D100 => self.display_message cout "Dispensing $1.00"
  | D125 => self.display_message cout "Dispensing $1.25"
  | D150 => self.display_message cout "Dispensing $1.50"
  | LMEET =>
    let r := self.display_message cout "Meet soda dispensed"
    ({ soda_logger := r.1.soda_logger.add_entry "Meet", clock := r.1.clock }, r.2)
  | LETIRPS =>
    let r := self.display_message cout "Etirps soda dispensed"
    ({ soda_logger := r.1.soda_logger.add_entry "Etirps", clock := r.1.clock }, r.2)
  | NO_ACTION => self.display_message cout "No action"

/-- Method `TerminalIOHandler::display_log` (lines 176-178). -/
def TerminalIOHandler.display_log (self : TerminalIOHandler) (cout : List String) :
    List String :=
  self.soda_logger.display_log cout

/-- The conversion `static_cast<Inputs>(input)` (line 135); `none` when the
integer is not the value of an enumerator. -/
def static_cast_Inputs (input : Int) : Option Inputs :=
  if input = 0 then some NADA_INPUT
  else if input = 1 then some M025
  else if input = 2 then some M050
  else if input = 3 then some M100
  else if input = 4 then some DEV
  else if input = 5 then some MEET
  else if input = 6 then some ETIRPS
  else if input = 7 then some LOG_INPUT
  else none

/-- The validation loop of `get_input` (lines 119-128) over the remaining
`cin` attempts. It has no result when `cin` runs out before a number between
0 and 6 is read: the source then loops forever. -/
def TerminalIOHandler.get_input_loop :
    List (Option Int) → TerminalIOHandler → List String →
      Option (Int × List (Option Int) × TerminalIOHandler × List String)
  | [], _, _ => none
  | attempt :: cin, self, cout =>
    let r := self.display_message cout "Your choice: "
    match attempt with
    | some input =>
      if 0 ≤ input ∧ input ≤ 6 then
        some (input, cin, r.1, r.2)
      else
        let r1 := r.1.display_message r.2 "Invalid input. Please enter a number between 0 and 6."
        TerminalIOHandler.get_input_loop cin r1.1 r1.2
    | none =>
      let r1 := r.1.display_message r.2 "Invalid input. Please enter a number between 0 and 6."
      TerminalIOHandler.get_input_loop cin r1.1 r1.2

/-- Method `get_input` (lines 109-136). -/
def TerminalIOHandler.get_input (self : TerminalIOHandler) (cin : List (Option Int))
    (cout : List String) :
    Option (Inputs × List (Option Int) × TerminalIOHandler × List String) :=
  let r := self.display_message cout "Select an option:"
  let cout1 := r.2 ++ ["0 - Show LOG", "1 - Insert $0.25", "2 - Insert $0.50",
    "3 - Insert $1.00", "4 - Refund", "5 - Buy Meet", "6 - Buy ETIRPS"]
  match TerminalIOHandler.get_input_loop cin r.1 cout1 with
  | none => none
  | some (input, cin1, self1, cout2) =>
    if input = 0 then
      some (LOG_INPUT, cin1, self1, cout2)
    else
      match static_cast_Inputs input with
      | none => none
      | some i => some (i, cin1, self1, cout2)

/-! ## The loop of `main` (lines 251-281) -/

/-- The variables of `main` together with the two standard streams. -/
structure Program where
  state_instructions : StateInstructions
  io_handler : TerminalIOHandler
  cin : List (Option Int)
  cout : List String

/-- The state of `main` when the loop is entered (lines 252-256). -/
def main_init (clock : ClockAndCalendar) (cin : List (Option Int)) : Program :=
  { state_instructions := { current_state := S000 },
    io_handler := { soda_logger := SodaLogger.new, clock := clock },
    cin := cin,
    cout := [] }

/-- The part of the loop body that follows `get_input` (lines 266-277), for the
input that `get_input` returned. -/
def main_process (state_instructions : StateInstructions) (io_handler : TerminalIOHandler)
    (cin : List (Option Int)) (cout : List String) (input : Inputs) : Option Program :=
  if input = LOG_INPUT then
    some { state_instructions := state_instructions,
           io_handler := io_handler,
           cin := cin,
           cout := io_handler.display_log cout }
  else
    match state_instructions.insert_command input with
    | none => none
    | some (state_instructions1, (next_state, action_taken)) =>
      let r := io_handler.display_message cout ("Next state: " ++ state_to_string next_state)
      let r1 := r.1.execute_action r.2 action_taken
      some { state_instructions := state_instructions1,
             io_handler := r1.1,
             cin := cin,
             cout := r1.2 }

/-- The two messages that open the loop body (lines 259-262). -/
def main_header (p : Program) : TerminalIOHandler × List String :=
  let r := p.io_handler.display_message p.cout
    "-------------------------------------------------------------------------------------"
  let current_money := p.state_instructions.get_current_money
  r.1.display_message r.2 ("You have " ++ toString current_money ++ " cents.")

/-- The call of `get_input` in the loop body (line 264). -/
def main_get_input (p : Program) :
    Option (Inputs × List (Option Int) × TerminalIOHandler × List String) :=
  (main_header p).1.get_input p.cin (main_header p).2

/-- One iteration of the `while (true)` loop of `main` (lines 258-278). -/
def main_iteration (p : Program) : Option Program :=
  match main_get_input p with
  | none => none
  | some (input, cin1, io_handler1, cout1) =>
    main_process p.state_instructions io_handler1 cin1 cout1 input

/-! ## Quantities read off the source for the statements -/

/-- Cents that an input adds to the machine: the three coins of the menu of
`get_input` (lines 113-115), nothing for the other inputs. -/
def Inputs.value : Inputs → Int
  | M025 => 25
  | M050 => 50
  | M100 => 100
  | _ => 0

/-- Cents that `execute_action` reports as dispensed (lines 140-157); the other
actions dispense no currency. -/
def Action.dispensed : Action → Int
  | D025 => 25
  | D050 => 50
  | D075 => 75
  | D100 => 100
  | D125 => 125
  | D150 => 150
  | _ => 0

/-- The actions for which `execute_action` calls `add_entry` (lines 158-165). -/
def Action.is_product : Action → Bool
  | LMEET => true
  | LETIRPS => true
  | _ => false

/-- Money of a state: `get_current_money` of a machine in that state. -/
def States.money (s : States) : Int :=
  StateInstructions.get_current_money { current_state := s }

/-- Whether the cell of `action_table` for a state and an input is a product
action. -/
def dispenses_product (s : States) (i : Inputs) : Bool :=
  match table_at action_table s.toNat i.toNat with
  | some a => a.is_product
  | none => false

/-- Successive calls of `insert_command` on one machine; `none` as soon as one
of them has no result. -/
def run_commands : StateInstructions → List Inputs → Option StateInstructions
  | m, [] => some m
  | m, input :: rest =>
    match m.insert_command input with
    | none => none
    | some r => run_commands r.1 rest

/-! ### The engine over the integer values of the enums

The same tables and the same method with every enum replaced by its integer
value, so that the state is whatever number the last lookup produced. -/

/-- Enumerator value of an action. -/
def Action.toNat : Action → Nat
  | NO_ACTION => 0
  | D025 => 1
  | D050 => 2
  | D075 => 3
  | D100 => 4
  | D125 => 5
  | D150 => 6
  | LMEET => 7
  | LETIRPS => 8

/-- The cells of `fsm_table` as integers. -/
def raw_fsm_table : List (List Nat) :=
  fsm_table.map (List.map States.toNat)

/-- The cells of `action_table` as integers. -/
def raw_action_table : List (List Nat) :=
  action_table.map (List.map Action.toNat)

/-- Method `insert_command` on integers: the new current state and the
returned pair. -/
def raw_insert_command (current_state input : Nat) : Option (Nat × (Nat × Nat)) :=
  if input = LOG_INPUT.toNat then
    some (current_state, (current_state, NO_ACTION.toNat))
  else
    match table_at raw_fsm_table current_state input with
    | none => none
    | some next_state =>
      match table_at raw_action_table current_state input with
      | none => none
      | some action_taken => some (next_state, (next_state, action_taken))

/-- Successive calls of `raw_insert_command`. -/
def raw_run_commands : Nat → List Nat → Option Nat
  | current_state, [] => some current_state
  | current_state, input :: rest =>
    match raw_insert_command current_state input with
    | none => none
    | some r => raw_run_commands r.1 rest

/-! ## The tables of the specification -/

/-- The six inputs that the columns of the table of section 4.1 stand for. -/
def spec_column : Inputs → Option Nat
  | M025 => some 0
  | M050 => some 1
  | M100 => some 2
  | DEV => some 3
  | MEET => some 4
  | ETIRPS => some 5
  | NADA_INPUT => none
  | LOG_INPUT => none

/-- The transition table as section 4.1 of the specification prints it, in
cents: rows 0, 25, ..., 150; columns +25, +50, +100, refund, buy-A, buy-B. -/
def spec_transition_table : List (List Int) :=
  [ [ 25,  50, 100, 0,   0,   0],
    [ 50,  75, 125, 0,  25,  25],
    [ 75, 100, 150, 0,  50,  50],
    [100, 125, 150, 0,  75,  75],
    [125, 150, 150, 0, 100, 100],
    [150, 150, 150, 0, 125, 125],
    [150, 150, 150, 0,   0, 150] ]

/-- The cell of the specification table for a state and an input, when the
input has a column. -/
def spec_next_money (s : States) (i : Inputs) : Option Int :=
  match spec_column i with
  | none => none
  | some col => table_at spec_transition_table s.toNat col

/-- The money of the next state that `insert_command` reads from `fsm_table`. -/
def next_money (s : States) (i : Inputs) : Option Int :=
  match StateInstructions.insert_command { current_state := s } i with
  | none => none
  | some r => some r.2.1.money

/-- The action that the specification gives for a refund: nothing at 0 cents,
otherwise the dispense action of the whole balance. -/
def spec_refund_action : States → Action
  | S000 => NO_ACTION
  | S025 => D025
  | S050 => D050
  | S075 => D075
  | S100 => D100
  | S125 => D125
  | S150 => D150

/-- Whether an input is one of the three coin insertions. -/
def Inputs.is_insert : Inputs → Bool
  | M025 => true
  | M050 => true
  | M100 => true
  | _ => false

/-- Whether an input is one of the two purchase requests. -/
def Inputs.is_buy : Inputs → Bool
  | MEET => true
  | ETIRPS => true
  | _ => false

/-- Successive calls of `add_entry`, one per name, in the order of the list. -/
def SodaLogger.add_entries (self : SodaLogger) (names : List String) : SodaLogger :=
  names.foldl SodaLogger.add_entry self

/-- The name that `execute_action` passes to `add_entry` for an action (lines
158-165); no name for the actions that do not reach `add_entry`. -/
def Action.logged_name : Action → List String
  | LMEET => ["Meet"]
  | LETIRPS => ["Etirps"]
  | _ => []

/-- The first iterations of the `while (true)` loop of `main`, as many as the
first argument says; `none` when one of them has no result. -/
def main_loop : Nat → Program → Option Program
  | 0, p => some p
  | n + 1, p =>
    match main_iteration p with
    | none => none
    | some p1 => main_loop n p1

/-- The number that the user types for a driver input, after the menu of
`get_input` (lines 112-118): 0 for the log, 1 to 6 for the others. NADA_INPUT
has no menu entry; its value 0 is read as the log request. -/
def menu_number (i : Inputs) : Int :=
  if i = LOG_INPUT then 0 else i.toNat

/-- The `cin` contents in which the user types the given driver inputs, one
number per attempt. -/
def typed (inputs : List Inputs) : List (Option Int) :=
  inputs.map (fun i => some (menu_number i))

/-- The purchases that the specification expects in the log, oldest first: one
name for each MEET or ETIRPS input received while the balance of the machine
is 150 cents, the balance being followed with `insert_command`. -/
def spec_purchases : StateInstructions → List Inputs → List String
  | _, [] => []
  | m, i :: rest =>
    let entry :=
      if m.get_current_money = 150 ∧ i = MEET then ["Meet"]
      else if m.get_current_money = 150 ∧ i = ETIRPS then ["Etirps"]
      else []
    match m.insert_command i with
    | none => entry
    | some r => entry ++ spec_purchases r.1 rest

/-! ### What the terminal shows

Every chunk written to `cout` is followed by `endl`, so the lines on the
terminal are the pieces of each chunk between its newline characters. -/

/-- Every lookup that `insert_command` makes for an enumerator pair is inside
both tables. -/
theorem insert_command_isSome (s : States) (i : Inputs) :
    (StateInstructions.insert_command { current_state := s } i).isSome = true := by
  cases s <;> cases i <;> rfl

/-- Claim C1, as stated, fails: from S150 the input ETIRPS leads to S000 in
`fsm_table`, while the cell of the table of section 4.1 is 150. -/
theorem fsm_table_differs_from_spec_table :
    ¬ ∀ (s : States) (i : Inputs), (spec_column i).isSome = true →
        next_money s i = spec_next_money s i := by
  intro h
  exact absurd (h S150 ETIRPS rfl) (by decide)

/-- Claim C1, amended: for every state and every one of the six inputs with a
column, the next state read from `fsm_table` has the money printed in the cell
of the table of section 4.1, except for the cell (150, buy-B), where
`fsm_table` gives the state of 0 cents. -/
theorem fsm_table_matches_spec_table (s : States) (i : Inputs)
    (h : (spec_column i).isSome = true) :
    (next_money s i).isSome = true ∧
      next_money s i = if s = S150 ∧ i = ETIRPS then some 0 else spec_next_money s i := by
  cases s <;> cases i <;> first | exact absurd h (by decide) | decide

/-- Witness of `fsm_table_matches_spec_table` at the cell (50, +100). -/
theorem fsm_table_matches_spec_table_witness :
    (spec_column M100).isSome = true ∧
      ((next_money S050 M100).isSome = true ∧
        next_money S050 M100 =
          if S050 = S150 ∧ M100 = ETIRPS then some 0 else spec_next_money S050 M100) :=
  ⟨by decide, fsm_table_matches_spec_table S050 M100 (by decide)⟩

/-- Claim C2: from every state the refund input DEV sets the current state to
S000 and returns S000 with the dispense action of the whole balance (D025 from
S025, ..., D150 from S150), which is NO_ACTION exactly from S000. -/
theorem refund_returns_whole_balance (s : States) :
    StateInstructions.insert_command { current_state := s } DEV =
        some ({ current_state := S000 }, (S000, spec_refund_action s)) ∧
      (spec_refund_action s).dispensed = s.money ∧
      (spec_refund_action s = NO_ACTION ↔ s = S000) := by
  cases s <;> decide

/-- Claim C3, at the failing input: inserting 100 cents at 75 cents commits S150
and returns D050, so 175 cents come in and 200 cents are accounted for; the
same happens at 125 cents (225 against 250), and no product is dispensed in
either transition. In every other transition without a product, under any of
the seven inputs other than LOG_INPUT, the money before plus the value of the
input is the money after plus the currency dispensed. -/
theorem money_not_conserved_at_S075_M100 :
    StateInstructions.insert_command { current_state := S075 } M100 =
        some ({ current_state := S150 }, (S150, D050)) ∧
      dispenses_product S075 M100 = false ∧
      S075.money + M100.value = 175 ∧ S150.money + D050.dispensed = 200 ∧
      StateInstructions.insert_command { current_state := S125 } M100 =
        some ({ current_state := S150 }, (S150, D100)) ∧
      dispenses_product S125 M100 = false ∧
      S125.money + M100.value = 225 ∧ S150.money + D100.dispensed = 250 ∧
      ∀ (s : States) (i : Inputs), i ≠ LOG_INPUT → dispenses_product s i = false →
        ¬ (i = M100 ∧ (s = S075 ∨ s = S125)) →
        ∃ r, StateInstructions.insert_command { current_state := s } i = some r ∧
          s.money + i.value = r.2.1.money + r.2.2.dispensed := by
  refine ⟨by decide, by decide, by decide, by decide, by decide, by decide, by decide,
    by decide, ?_⟩
  intro s i h1 h2 h3
  cases s <;> cases i <;>
    first
    | exact ⟨_, rfl, by decide⟩
    | exact absurd rfl h1
    | exact absurd h2 (by decide)
    | exact absurd (And.intro rfl (by decide)) h3

/-- Claim C4, as stated, fails: inserting 25 cents at 150 cents returns D025. -/
theorem insert_can_dispense :
    ¬ ∀ (s : States) (i : Inputs), i.is_insert = true →
        ∃ m next_state, StateInstructions.insert_command { current_state := s } i =
          some (m, (next_state, NO_ACTION)) := by
  intro h
  obtain ⟨m, next_state, hm⟩ := h S150 M025 rfl
  revert hm
  cases m with
  | mk c => cases c <;> cases next_state <;> decide

/-- Claim C4, amended: for every state and every insert input, the returned
action is NO_ACTION exactly when the balance plus the coin does not exceed 150
cents; above 150 cents the action dispenses currency, never a product. -/
theorem insert_action_no_action_iff_fits (s : States) (i : Inputs)
    (h : i.is_insert = true) :
    ∃ m next_state a, StateInstructions.insert_command { current_state := s } i =
        some (m, (next_state, a)) ∧
      (a = NO_ACTION ↔ s.money + i.value ≤ 150) ∧
      (150 < s.money + i.value → 0 < a.dispensed) ∧
      a.is_product = false := by
  cases s <;> cases i <;>
    first
    | exact absurd h (by decide)
    | exact ⟨_, _, _, rfl, by decide, by decide, by decide⟩

/-- Witness of `insert_action_no_action_iff_fits` at S150 and M025. -/
theorem insert_action_no_action_iff_fits_witness :
    M025.is_insert = true ∧
      ∃ m next_state a, StateInstructions.insert_command { current_state := S150 } M025 =
          some (m, (next_state, a)) ∧
        (a = NO_ACTION ↔ S150.money + M025.value ≤ 150) ∧
        (150 < S150.money + M025.value → 0 < a.dispensed) ∧
        a.is_product = false :=
  ⟨by decide, insert_action_no_action_iff_fits S150 M025 (by decide)⟩

/-- Claim C5: for every state and every insert input, the state committed by
`insert_command` (which is also the returned next state) has money
min(150, money before + value of the coin). -/
theorem insert_money_caps_at_150 (s : States) (i : Inputs) (h : i.is_insert = true) :
    ∃ m a, StateInstructions.insert_command { current_state := s } i =
        some (m, (m.current_state, a)) ∧
      m.get_current_money = min 150 (s.money + i.value) := by
  cases s <;> cases i <;>
    first
    | exact absurd h (by decide)
    | exact ⟨_, _, rfl, by decide⟩

/-- Witness of `insert_money_caps_at_150` at S075 and M100. -/
theorem insert_money_caps_at_150_witness :
    M100.is_insert = true ∧
      ∃ m a, StateInstructions.insert_command { current_state := S075 } M100 =
          some (m, (m.current_state, a)) ∧
        m.get_current_money = min 150 (S075.money + M100.value) :=
  ⟨by decide, insert_money_caps_at_150 S075 M100 (by decide)⟩

/-- Claim C6, as stated, fails: from S100 the input MEET dispenses no product
and yet does not refund; the machine stays in S100 with NO_ACTION. -/
theorem failed_purchase_is_not_a_refund :
    ¬ ∀ (s : States) (b : Inputs), b.is_buy = true → dispenses_product s b = false →
        StateInstructions.insert_command { current_state := s } b =
          some ({ current_state := S000 }, (S000, spec_refund_action s)) := by
  intro h
  exact absurd (h S100 MEET rfl rfl) (by decide)

/-- Claim C6, amended: for every state and every buy input whose transition
does not dispense the product, `insert_command` keeps the balance: the state is
unchanged and the action is NO_ACTION; these are the states below S150. -/
theorem failed_purchase_keeps_balance (s : States) (b : Inputs) (hb : b.is_buy = true)
    (hp : dispenses_product s b = false) :
    StateInstructions.insert_command { current_state := s } b =
        some ({ current_state := s }, (s, NO_ACTION)) ∧
      s ≠ S150 := by
  cases s <;> cases b <;>
    first
    | exact absurd hb (by decide)
    | exact absurd hp (by decide)
    | decide

/-- Witness of `failed_purchase_keeps_balance` at S100 and MEET. -/
theorem failed_purchase_keeps_balance_witness :
    MEET.is_buy = true ∧ dispenses_product S100 MEET = false ∧
      (StateInstructions.insert_command { current_state := S100 } MEET =
          some ({ current_state := S100 }, (S100, NO_ACTION)) ∧
        S100 ≠ S150) :=
  ⟨by decide, by decide, failed_purchase_keeps_balance S100 MEET (by decide) (by decide)⟩

/-- Claim C7, as stated, fails: buy-B at S150 does not return (S150, NO_ACTION)
and does not leave the machine in S150. -/
theorem buy_B_at_S150_is_not_ignored :
    ¬ (StateInstructions.insert_command { current_state := S150 } ETIRPS =
        some ({ current_state := S150 }, (S150, NO_ACTION))) := by
  decide

/-- Claim C7, amended: on a machine in S150, `insert_command(ETIRPS)` returns
next state S000 and action LETIRPS, and the current state afterwards is S000. -/
theorem buy_B_at_S150_dispenses_product :
    StateInstructions.insert_command { current_state := S150 } ETIRPS =
      some ({ current_state := S000 }, (S000, LETIRPS)) := by
  decide

/-- One call of `insert_command` and the same call on the integer values of the
enums have the same result. -/
theorem raw_insert_command_eq (s : States) (i : Inputs) :
    ∃ r, StateInstructions.insert_command { current_state := s } i = some r ∧
      raw_insert_command s.toNat i.toNat =
        some (r.1.current_state.toNat, (r.2.1.toNat, r.2.2.toNat)) := by
  cases s <;> cases i <;> exact ⟨_, rfl, rfl⟩

/-- From any state, a sequence of commands has a result, which the run over
the integer values reaches too. -/
theorem run_commands_from (inputs : List Inputs) :
    ∀ m0 : StateInstructions, ∃ m, run_commands m0 inputs = some m ∧
      raw_run_commands m0.current_state.toNat (inputs.map Inputs.toNat) =
        some m.current_state.toNat := by
  induction inputs with
  | nil => intro m0; exact ⟨m0, rfl, rfl⟩
  | cons i rest ih =>
    intro m0
    obtain ⟨r, hr, hraw⟩ := raw_insert_command_eq m0.current_state i
    obtain ⟨m, hm, hmraw⟩ := ih r.1
    refine ⟨m, ?_, ?_⟩
    · have h0 : m0 = { current_state := m0.current_state } := rfl
      rw [h0]
      simp only [run_commands, hr]
      exact hm
    · simp only [List.map_cons, raw_run_commands, hraw]
      exact hmraw

/-- The enumerator value of a state is a row index of the tables. -/
theorem States.toNat_lt (s : States) : s.toNat < 7 := by
  cases s <;> decide

/-- Claim C8: every finite sequence of the eight inputs, applied with
`insert_command` to a machine created in S000, has a result: no lookup leaves
the 7x8 tables, also when the state is carried as the integer that the last
lookup produced, and the committed state is one of the seven states. -/
theorem insert_command_never_leaves_tables (inputs : List Inputs) :
    ∃ m, run_commands { current_state := S000 } inputs = some m ∧
      raw_run_commands S000.toNat (inputs.map Inputs.toNat) = some m.current_state.toNat ∧
      m.current_state.toNat < 7 := by
  obtain ⟨m, hm, hraw⟩ := run_commands_from inputs { current_state := S000 }
  exact ⟨m, hm, hraw, States.toNat_lt m.current_state⟩

/-- The handler `display_message` leaves the logger alone. -/
theorem display_message_soda_logger (self : TerminalIOHandler) (cout : List String)
    (message : String) :
    (self.display_message cout message).1.soda_logger = self.soda_logger :=
  rfl

/-- The validation loop of `get_input` leaves the logger alone. -/
theorem get_input_loop_soda_logger (cin : List (Option Int)) :
    ∀ (self : TerminalIOHandler) (cout : List String) (input : Int)
      (cin1 : List (Option Int)) (self1 : TerminalIOHandler) (cout1 : List String),
      TerminalIOHandler.get_input_loop cin self cout = some (input, cin1, self1, cout1) →
        self1.soda_logger = self.soda_logger := by
  induction cin with
  | nil => intro self cout input cin1 self1 cout1 h; simp [TerminalIOHandler.get_input_loop] at h
  | cons attempt rest ih =>
    intro self cout input cin1 self1 cout1 h
    cases attempt with
    | none =>
      simp only [TerminalIOHandler.get_input_loop] at h
      have := ih _ _ _ _ _ _ h
      simpa [display_message_soda_logger] using this
    | some v =>
      simp only [TerminalIOHandler.get_input_loop] at h
      split at h
      · simp only [Option.some.injEq, Prod.mk.injEq] at h
        obtain ⟨_, _, h3, _⟩ := h
        rw [← h3]
        rfl
      · have := ih _ _ _ _ _ _ h
        simpa [display_message_soda_logger] using this

/-- Method `get_input` leaves the logger alone. -/
theorem get_input_soda_logger (self : TerminalIOHandler) (cin : List (Option Int))
    (cout : List String) (input : Inputs) (cin1 : List (Option Int))
    (self1 : TerminalIOHandler) (cout1 : List String)
    (h : self.get_input cin cout = some (input, cin1, self1, cout1)) :
    self1.soda_logger = self.soda_logger := by
  unfold TerminalIOHandler.get_input at h
  simp only at h
  split at h
  · exact absurd h (by simp)
  · rename_i v c s1 c1 hloop
    have hl := get_input_loop_soda_logger _ _ _ _ _ _ _ hloop
    have hs : self1 = s1 := by
      split at h
      · simp only [Option.some.injEq, Prod.mk.injEq] at h
        exact h.2.2.1.symm
      · split at h
        · exact absurd h (by simp)
        · simp only [Option.some.injEq, Prod.mk.injEq] at h
          exact h.2.2.1.symm
    rw [hs, hl]
    rfl

/-- Claim C9: from every state `insert_command(LOG_INPUT)` returns the current
state with NO_ACTION and leaves the machine as it is; and an iteration of the
loop of `main` in which `get_input` returns LOG_INPUT ends with the machine
untouched, the logger untouched, and `cout` extended by `display_log` only:
neither `insert_command` nor `execute_action` runs. -/
theorem log_input_changes_nothing (s : States) (p : Program) (cin1 : List (Option Int))
    (io1 : TerminalIOHandler) (cout1 : List String)
    (h : main_get_input p = some (LOG_INPUT, cin1, io1, cout1)) :
    StateInstructions.insert_command { current_state := s } LOG_INPUT =
        some ({ current_state := s }, (s, NO_ACTION)) ∧
      main_iteration p = some { state_instructions := p.state_instructions,
                                io_handler := io1,
                                cin := cin1,
                                cout := io1.display_log cout1 } ∧
      io1.soda_logger = p.io_handler.soda_logger := by
  refine ⟨rfl, ?_, ?_⟩
  · simp [main_iteration, h, main_process]
  · have := get_input_soda_logger _ _ _ _ _ _ _ h
    rw [this]
    rfl

/-- Witness of `log_input_changes_nothing`: the machine holds 75 cents, the log
holds one purchase, and the user types 0. -/
theorem log_input_changes_nothing_witness :
    main_get_input { state_instructions := { current_state := S075 },
                     io_handler := { soda_logger := { head := ["Meet"] },
                                     clock := { datetime := fun _ => "", calls := 0 } },
                     cin := [some 0],
                     cout := [] } =
        some (LOG_INPUT, [], { soda_logger := { head := ["Meet"] },
                               clock := { datetime := fun _ => "", calls := 4 } },
          [" - -------------------------------------------------------------------------------------",
           " - You have 75 cents.", " - Select an option:", "0 - Show LOG", "1 - Insert $0.25",
           "2 - Insert $0.50", "3 - Insert $1.00", "4 - Refund", "5 - Buy Meet",
           "6 - Buy ETIRPS", " - Your choice: "]) ∧
      (StateInstructions.insert_command { current_state := S075 } LOG_INPUT =
          some ({ current_state := S075 }, (S075, NO_ACTION)) ∧
        main_iteration { state_instructions := { current_state := S075 },
                         io_handler := { soda_logger := { head := ["Meet"] },
                                         clock := { datetime := fun _ => "", calls := 0 } },
                         cin := [some 0],
                         cout := [] } =
          some { state_instructions := { current_state := S075 },
                 io_handler := { soda_logger := { head := ["Meet"] },
                                 clock := { datetime := fun _ => "", calls := 4 } },
                 cin := [],
                 cout := TerminalIOHandler.display_log
                   { soda_logger := { head := ["Meet"] },
                     clock := { datetime := fun _ => "", calls := 4 } }
                   [" - -------------------------------------------------------------------------------------",
                    " - You have 75 cents.", " - Select an option:", "0 - Show LOG",
                    "1 - Insert $0.25", "2 - Insert $0.50", "3 - Insert $1.00", "4 - Refund",
                    "5 - Buy Meet", "6 - Buy ETIRPS", " - Your choice: "] } ∧
        SodaLogger.mk ["Meet"] = SodaLogger.mk ["Meet"]) :=
  ⟨by rfl, log_input_changes_nothing S075 _ _ _ _ (by rfl)⟩

/-- Claim C10: `get_current_money`, as a function of the current state, is a
bijection from the seven states onto the set of 0, 25, 50, 75, 100, 125 and 150:
distinct states have distinct amounts and every amount of the set is the money
of some state. -/
theorem get_current_money_bijective :
    Set.BijOn (fun s : States => StateInstructions.get_current_money { current_state := s })
      Set.univ ({0, 25, 50, 75, 100, 125, 150} : Set Int) := by
  refine ⟨?_, ?_, ?_⟩
  · intro s _
    cases s <;> simp [StateInstructions.get_current_money]
  · intro a _ b _ h
    cases a <;> cases b <;> first | rfl | exact absurd h (by decide)
  · intro n hn
    simp only [Set.mem_insert_iff, Set.mem_singleton_iff] at hn
    rcases hn with h | h | h | h | h | h | h
    · exact ⟨S000, trivial, h.symm⟩
    · exact ⟨S025, trivial, h.symm⟩
    · exact ⟨S050, trivial, h.symm⟩
    · exact ⟨S075, trivial, h.symm⟩
    · exact ⟨S100, trivial, h.symm⟩
    · exact ⟨S125, trivial, h.symm⟩
    · exact ⟨S150, trivial, h.symm⟩

/-- One insertion from any state: the committed state is the returned one and
its money is the capped sum. -/
theorem insert_step_money (s : States) (i : Inputs) (h : i.is_insert = true) :
    ∃ m a, StateInstructions.insert_command { current_state := s } i =
        some (m, (m.current_state, a)) ∧
      m.get_current_money = min 150 (s.money + i.value) := by
  cases s <;> cases i <;>
    first
    | exact absurd h (by decide)
    | exact ⟨_, _, rfl, by decide⟩

/-- The value of an input is not negative. -/
theorem Inputs.value_nonneg (i : Inputs) : 0 ≤ i.value := by
  cases i <;> decide

/-- The values of a sequence of inputs do not add up to a negative number. -/
theorem sum_value_nonneg (inputs : List Inputs) : 0 ≤ (inputs.map Inputs.value).sum := by
  induction inputs with
  | nil => simp
  | cons i rest ih =>
    have := Inputs.value_nonneg i
    simp only [List.map_cons, List.sum_cons]
    omega

/-- A sequence of insertions from any state ends with the capped sum of the
starting balance and the inserted values. -/
theorem run_inserts_from (inputs : List Inputs) :
    ∀ s : States, (∀ i ∈ inputs, i.is_insert = true) →
      ∃ m, run_commands { current_state := s } inputs = some m ∧
        m.get_current_money = min 150 (s.money + (inputs.map Inputs.value).sum) := by
  induction inputs with
  | nil =>
    intro s _
    refine ⟨{ current_state := s }, rfl, ?_⟩
    cases s <;> decide
  | cons i rest ih =>
    intro s h
    obtain ⟨m1, a, h1, hmoney1⟩ := insert_step_money s i (h i (List.mem_cons_self i rest))
    obtain ⟨m, hm, hmoney⟩ := ih m1.current_state
      (fun j hj => h j (List.mem_cons_of_mem i hj))
    refine ⟨m, ?_, ?_⟩
    · simp only [run_commands, h1]
      exact hm
    · have hv := Inputs.value_nonneg i
      have hs := sum_value_nonneg rest
      have e : m1.current_state.money = min 150 (s.money + i.value) := hmoney1
      rw [hmoney, e]
      simp only [List.map_cons, List.sum_cons]
      omega

/-- Claim C11: for every finite sequence of insert inputs applied with
`insert_command` to a machine created in S000, and for every prefix of it (its
first `k` inputs), `get_current_money` after the prefix is min(150, sum of the
values inserted so far). -/
theorem insert_sequence_money (inputs : List Inputs) (k : Nat)
    (h : ∀ i ∈ inputs, i.is_insert = true) :
    ∃ m, run_commands { current_state := S000 } (inputs.take k) = some m ∧
      m.get_current_money = min 150 (((inputs.take k).map Inputs.value).sum) := by
  obtain ⟨m, hm, hmoney⟩ := run_inserts_from (inputs.take k) S000
    (fun i hi => h i (List.mem_of_mem_take hi))
  refine ⟨m, hm, ?_⟩
  rw [hmoney]
  have : S000.money = 0 := rfl
  rw [this, zero_add]

/-- Witness of `insert_sequence_money`: four insertions of 25 cents go through
S025, S050, S075 and S100 and end with 100 cents. -/
theorem insert_sequence_money_witness :
    (∀ i ∈ [M025, M025, M025, M025], i.is_insert = true) ∧
      (∃ m, run_commands { current_state := S000 } ([M025, M025, M025, M025].take 4) = some m ∧
        m.get_current_money =
          min 150 ((([M025, M025, M025, M025].take 4).map Inputs.value).sum)) ∧
      run_commands { current_state := S000 } [M025] = some { current_state := S025 } ∧
      run_commands { current_state := S000 } [M025, M025] = some { current_state := S050 } ∧
      run_commands { current_state := S000 } [M025, M025, M025] =
        some { current_state := S075 } ∧
      run_commands { current_state := S000 } [M025, M025, M025, M025] =
        some { current_state := S100 } ∧
      StateInstructions.get_current_money { current_state := S100 } = 100 :=
  ⟨by decide, insert_sequence_money [M025, M025, M025, M025] 4 (by decide),
    by decide, by decide, by decide, by decide, by decide⟩

/-- Claim C12: from S000 each of the three insert inputs returns a next state
whose money is not less than the 0 cents held before, and an action that is
none of D025, D050, D075, D100, D125, D150, LMEET and LETIRPS. -/
theorem insert_from_S000 (i : Inputs) (h : i.is_insert = true) :
    ∃ m next_state a, StateInstructions.insert_command { current_state := S000 } i =
        some (m, (next_state, a)) ∧
      S000.money ≤ next_state.money ∧
      a ∉ [D025, D050, D075, D100, D125, D150, LMEET, LETIRPS] := by
  cases i <;>
    first
    | exact absurd h (by decide)
    | exact ⟨_, _, _, rfl, by decide, by decide⟩

/-- Witness of `insert_from_S000` at M050. -/
theorem insert_from_S000_witness :
    M050.is_insert = true ∧
      ∃ m next_state a, StateInstructions.insert_command { current_state := S000 } M050 =
          some (m, (next_state, a)) ∧
        S000.money ≤ next_state.money ∧
        a ∉ [D025, D050, D075, D100, D125, D150, LMEET, LETIRPS] :=
  ⟨by decide, insert_from_S000 M050 (by decide)⟩

/-- Claim C13: `execute_action` changes the purchase log only for the two
product actions: NO_ACTION and each of D025, ..., D150 leave the logger as it
is, LMEET puts the one entry "Meet" at its head and LETIRPS the one entry
"Etirps"; no currency action records a product. -/
theorem execute_action_log_effect (self : TerminalIOHandler) (cout : List String) :
    (self.execute_action cout NO_ACTION).1.soda_logger = self.soda_logger ∧
      (self.execute_action cout D025).1.soda_logger = self.soda_logger ∧
      (self.execute_action cout D050).1.soda_logger = self.soda_logger ∧
      (self.execute_action cout D075).1.soda_logger = self.soda_logger ∧
      (self.execute_action cout D100).1.soda_logger = self.soda_logger ∧
      (self.execute_action cout D125).1.soda_logger = self.soda_logger ∧
      (self.execute_action cout D150).1.soda_logger = self.soda_logger ∧
      (self.execute_action cout LMEET).1.soda_logger.head = "Meet" :: self.soda_logger.head ∧
      (self.execute_action cout LETIRPS).1.soda_logger.head =
        "Etirps" :: self.soda_logger.head :=
  ⟨rfl, rfl, rfl, rfl, rfl, rfl, rfl, rfl, rfl⟩

/-- After a run of `add_entry` calls the list holds the new names, last added
first, in front of the old ones. -/
theorem add_entries_head (names : List String) :
    ∀ self : SodaLogger, (self.add_entries names).head = names.reverse ++ self.head := by
  induction names with
  | nil => intro self; rfl
  | cons n rest ih =>
    intro self
    have h := ih (self.add_entry n)
    simp only [SodaLogger.add_entries, List.foldl_cons] at h ⊢
    rw [h]
    simp [SodaLogger.add_entry]

/-- The loop of `display_log` writes one chunk per node, from the head on. -/
theorem display_nodes_eq (nodes : List String) :
    ∀ cout : List String,
      SodaLogger.display_nodes nodes cout = cout ++ nodes.map (fun n => "- " ++ n) := by
  induction nodes with
  | nil => intro cout; simp [SodaLogger.display_nodes]
  | cons n rest ih =>
    intro cout
    simp [SodaLogger.display_nodes, ih]

/-- What `display_log` writes for a list with at least one node. -/
theorem display_log_cons (name : String) (rest cout : List String) :
    SodaLogger.display_log { head := name :: rest } cout =
      cout ++ "\nSoda Purchase Log:" :: (name :: rest).map (fun n => "- " ++ n) := by
  simp [SodaLogger.display_log, display_nodes_eq]

/-- Claim C14: after the names n1, ..., nk are recorded with `add_entry`, in
that order, on an empty `SodaLogger`, the list holds them last added first and
`display_log` writes, after its header, one chunk per name in the order
nk, ..., n1, none lost and none twice (and the empty indicator when there is
no name). -/
theorem display_log_most_recent_first (names : List String) (cout : List String) :
    (SodaLogger.new.add_entries names).head = names.reverse ∧
      SodaLogger.display_log (SodaLogger.new.add_entries names) cout =
        cout ++ "\nSoda Purchase Log:" ::
          (if names = [] then ["No sodas were purchased."]
           else names.reverse.map (fun n => "- " ++ n)) := by
  have hhead : (SodaLogger.new.add_entries names).head = names.reverse := by
    rw [add_entries_head]
    simp [SodaLogger.new]
  refine ⟨hhead, ?_⟩
  have hstruct : SodaLogger.new.add_entries names = { head := names.reverse } := by
    cases hL : SodaLogger.new.add_entries names with
    | mk hd =>
      rw [hL] at hhead
      simp only at hhead
      rw [hhead]
  rw [hstruct]
  cases hrev : names.reverse with
  | nil =>
    have hn : names = [] := List.reverse_eq_nil_iff.mp hrev
    simp [hn, SodaLogger.display_log]
  | cons n rest =>
    have hn : names ≠ [] := by
      intro hnil
      rw [hnil] at hrev
      simp at hrev
    rw [display_log_cons, if_neg hn]

/-- Claim C16, as stated, fails: from S075 the input MEET does not return the
action D050. -/
theorem buy_A_at_S075_gives_no_change :
    ¬ ∃ m next_state, StateInstructions.insert_command { current_state := S075 } MEET =
        some (m, (next_state, D050)) := by
  intro h
  obtain ⟨m, next_state, hm⟩ := h
  have h1 : StateInstructions.insert_command { current_state := S075 } MEET =
      some ({ current_state := S075 }, (S075, NO_ACTION)) := rfl
  rw [h1] at hm
  simp at hm

/-- Claim C16, amended: on a machine in S075, `insert_command(MEET)` returns
NO_ACTION (no change is dispensed) and keeps the state S075; the action is not
LMEET, and executing it leaves the purchase log as it is. -/
theorem buy_A_at_S075_is_ignored (self : TerminalIOHandler) (cout : List String) :
    StateInstructions.insert_command { current_state := S075 } MEET =
        some ({ current_state := S075 }, (S075, NO_ACTION)) ∧
      NO_ACTION ≠ LMEET ∧
      (self.execute_action cout NO_ACTION).1.soda_logger = self.soda_logger :=
  ⟨rfl, by decide, rfl⟩

/-- Claim C17: `insert_command` returns a product action exactly when the
machine is in S150 and the input is MEET or ETIRPS: from S150, MEET gives
(S000, LMEET) and ETIRPS gives (S000, LETIRPS); from a state below S150 both
leave the state unchanged with NO_ACTION; no other input returns LMEET or
LETIRPS from any state. -/
theorem product_action_iff_buy_at_S150 (s : States) (i : Inputs) :
    StateInstructions.insert_command { current_state := s } MEET =
        (if s = S150 then some ({ current_state := S000 }, (S000, LMEET))
         else some ({ current_state := s }, (s, NO_ACTION))) ∧
      StateInstructions.insert_command { current_state := s } ETIRPS =
        (if s = S150 then some ({ current_state := S000 }, (S000, LETIRPS))
         else some ({ current_state := s }, (s, NO_ACTION))) ∧
      ∃ r, StateInstructions.insert_command { current_state := s } i = some r ∧
        ((r.2.2 = LMEET ∨ r.2.2 = LETIRPS) ↔ (s = S150 ∧ (i = MEET ∨ i = ETIRPS))) := by
  refine ⟨by cases s <;> decide, by cases s <;> decide, ?_⟩
  cases s <;> cases i <;> exact ⟨_, rfl, by decide⟩

/-- The log after `execute_action` is the name recorded for the action, if
any, in front of the log before. -/
theorem execute_action_head (self : TerminalIOHandler) (cout : List String) (a : Action) :
    (self.execute_action cout a).1.soda_logger.head =
      a.logged_name ++ self.soda_logger.head := by
  cases a <;> rfl

/-- One call of `insert_command`: it has a result, the name logged for its
action is the purchase that the specification expects, and a purchase request
at 150 cents empties the machine and logs the product. -/
theorem insert_command_logged_name (m : StateInstructions) (i : Inputs) :
    ∃ r, m.insert_command i = some r ∧
      r.2.2.logged_name =
        (if m.get_current_money = 150 ∧ i = MEET then ["Meet"]
         else if m.get_current_money = 150 ∧ i = ETIRPS then ["Etirps"]
         else []) ∧
      (m.get_current_money = 150 → i.is_buy = true →
        r.1.get_current_money = 0 ∧
          r.2.2.logged_name = [if i = MEET then "Meet" else "Etirps"]) := by
  obtain ⟨s⟩ := m
  cases s <;> cases i <;> exact ⟨_, rfl, by decide, by decide⟩

/-- When the next thing typed is the menu number of a driver input,
`get_input` returns that input and consumes the one attempt. -/
theorem get_input_typed (i : Inputs) (hi : i ≠ NADA_INPUT) (self : TerminalIOHandler)
    (cin : List (Option Int)) (cout : List String) :
    ∃ self1 cout1,
      self.get_input (some (menu_number i) :: cin) cout = some (i, cin, self1, cout1) := by
  cases i <;>
    first
    | exact absurd rfl hi
    | exact ⟨_, _, rfl⟩

/-- One iteration of the loop when the next thing typed is the menu number of a
driver input: the machine takes the command and the log receives the name
recorded for the returned action. -/
theorem main_iteration_typed (p : Program) (i : Inputs) (rest : List (Option Int))
    (hi : i ≠ NADA_INPUT) (hcin : p.cin = some (menu_number i) :: rest) :
    ∃ p1 r, main_iteration p = some p1 ∧ p.state_instructions.insert_command i = some r ∧
      p1.state_instructions = r.1 ∧ p1.cin = rest ∧
      p1.io_handler.soda_logger.head =
        r.2.2.logged_name ++ p.io_handler.soda_logger.head := by
  obtain ⟨io1, cout1, hget⟩ :=
    get_input_typed i hi (main_header p).1 rest (main_header p).2
  have hget1 : main_get_input p = some (i, rest, io1, cout1) := by
    unfold main_get_input
    rw [hcin]
    exact hget
  have hlog : io1.soda_logger = p.io_handler.soda_logger := by
    have := get_input_soda_logger _ _ _ _ _ _ _ hget1
    rw [this]
    rfl
  by_cases hL : i = LOG_INPUT
  · subst hL
    refine ⟨{ state_instructions := p.state_instructions, io_handler := io1, cin := rest,
              cout := io1.display_log cout1 },
      (p.state_instructions, (p.state_instructions.current_state, NO_ACTION)), ?_, rfl, rfl,
      rfl, ?_⟩
    · simp [main_iteration, hget1, main_process]
    · show io1.soda_logger.head = [] ++ p.io_handler.soda_logger.head
      rw [hlog]
      rfl
  · obtain ⟨r, hr, _, _⟩ := insert_command_logged_name p.state_instructions i
    obtain ⟨m1, next_state, a⟩ := r
    refine ⟨{ state_instructions := m1,
              io_handler := ((io1.display_message cout1
                ("Next state: " ++ state_to_string next_state)).1.execute_action
                  (io1.display_message cout1
                    ("Next state: " ++ state_to_string next_state)).2 a).1,
              cin := rest,
              cout := ((io1.display_message cout1
                ("Next state: " ++ state_to_string next_state)).1.execute_action
                  (io1.display_message cout1
                    ("Next state: " ++ state_to_string next_state)).2 a).2 },
      (m1, (next_state, a)), ?_, hr, rfl, rfl, ?_⟩
    · simp [main_iteration, hget1, main_process, hL, hr]
    · show (TerminalIOHandler.execute_action _ _ a).1.soda_logger.head = _
      rw [execute_action_head]
      show a.logged_name ++ io1.soda_logger.head = _
      rw [hlog]

/-- One more iteration at the end of a run of the loop. -/
theorem main_loop_succ (k : Nat) :
    ∀ p : Program, main_loop (k + 1) p = (main_loop k p).bind main_iteration := by
  induction k with
  | zero =>
    intro p
    simp only [main_loop, Option.some_bind]
    cases main_iteration p <;> rfl
  | succ n ih =>
    intro p
    cases h : main_iteration p with
    | none => simp [main_loop, h]
    | some p1 =>
      have e1 : main_loop (n + 1 + 1) p = main_loop (n + 1) p1 := by
        simp only [main_loop, h]
      have e2 : main_loop (n + 1) p = main_loop n p1 := by
        simp only [main_loop, h]
      rw [e1, e2, ih p1]

/-- The loop over typed driver inputs: it consumes them one per iteration, the
machine goes through the same commands, and the log receives the expected
purchases, the last one first. -/
theorem main_loop_typed (inputs : List Inputs) :
    ∀ (p : Program) (tail : List (Option Int)), (∀ i ∈ inputs, i ≠ NADA_INPUT) →
      p.cin = typed inputs ++ tail →
      ∃ p1, main_loop inputs.length p = some p1 ∧ p1.cin = tail ∧
        run_commands p.state_instructions inputs = some p1.state_instructions ∧
        p1.io_handler.soda_logger.head =
          (spec_purchases p.state_instructions inputs).reverse ++
            p.io_handler.soda_logger.head := by
  induction inputs with
  | nil =>
    intro p tail _ hcin
    exact ⟨p, rfl, by simpa [typed] using hcin, rfl, by simp [spec_purchases]⟩
  | cons i rest ih =>
    intro p tail h hcin
    have hcin1 : p.cin = some (menu_number i) :: (typed rest ++ tail) := by
      simpa [typed] using hcin
    obtain ⟨p1, r, hiter, hr, hstate, hcin2, hhead⟩ :=
      main_iteration_typed p i (typed rest ++ tail) (h i (List.mem_cons_self i rest)) hcin1
    obtain ⟨p2, hloop, htail, hrun, hhead2⟩ :=
      ih p1 tail (fun j hj => h j (List.mem_cons_of_mem i hj)) hcin2
    obtain ⟨r1, hr1, hname, _⟩ := insert_command_logged_name p.state_instructions i
    have hrr : r1 = r := Option.some.inj (hr1.symm.trans hr)
    subst hrr
    refine ⟨p2, ?_, htail, ?_, ?_⟩
    · simp only [List.length_cons, main_loop, hiter]
      exact hloop
    · simp only [run_commands, hr]
      rw [← hstate]
      exact hrun
    · rw [hhead2, hhead, hstate, hname]
      simp only [spec_purchases, hr]
      split
      · simp
      · split <;> simp

/-- Claim C18: the user types a finite sequence of driver inputs (any of the
six non-log inputs and LOG_INPUT) and the loop of `main` starts from a machine
in S000 with an empty log. After every number `k` of iterations the loop has a
result, the machine is where `insert_command` takes it, and the log holds, most
recent first, exactly one entry for each MEET ("Meet") or ETIRPS ("Etirps")
among the first `k` inputs that arrived at a balance of 150 cents; and when the
next input is such a purchase, the following iteration leaves the machine at 0
cents with that product at the head of the log. -/
theorem purchase_log_matches_purchases (clock : ClockAndCalendar) (inputs : List Inputs)
    (k : Nat) (h : ∀ i ∈ inputs, i ≠ NADA_INPUT) (hk : k ≤ inputs.length) :
    ∃ p, main_loop k (main_init clock (typed inputs)) = some p ∧
      run_commands { current_state := S000 } (inputs.take k) = some p.state_instructions ∧
      p.io_handler.soda_logger.head =
        (spec_purchases { current_state := S000 } (inputs.take k)).reverse ∧
      ∀ b, inputs[k]? = some b → b.is_buy = true →
        p.state_instructions.get_current_money = 150 →
        ∃ p1, main_loop (k + 1) (main_init clock (typed inputs)) = some p1 ∧
          p1.state_instructions.get_current_money = 0 ∧
          p1.io_handler.soda_logger.head =
            (if b = MEET then "Meet" else "Etirps") :: p.io_handler.soda_logger.head := by
  have hlen : (inputs.take k).length = k := by
    rw [List.length_take]
    exact Nat.min_eq_left hk
  have hsplit : (main_init clock (typed inputs)).cin =
      typed (inputs.take k) ++ typed (inputs.drop k) := by
    show typed inputs = _
    unfold typed
    rw [← List.map_append, List.take_append_drop]
  obtain ⟨p, hloop, hcin, hrun, hhead⟩ :=
    main_loop_typed (inputs.take k) (main_init clock (typed inputs)) (typed (inputs.drop k))
      (fun i hi => h i (List.mem_of_mem_take hi)) hsplit
  rw [hlen] at hloop
  refine ⟨p, hloop, hrun, ?_, ?_⟩
  · rw [hhead]
    show _ ++ ([] : List String) = _
    rw [List.append_nil]
    rfl
  · intro b hb hbuy hmoney
    have hklt : k < inputs.length := by
      rcases Nat.lt_or_ge k inputs.length with hlt | hge
      · exact hlt
      · rw [List.getElem?_eq_none hge] at hb
        exact absurd hb (by simp)
    have hbk : inputs[k] = b := by
      rw [List.getElem?_eq_getElem hklt] at hb
      exact Option.some.inj hb
    have hdrop : inputs.drop k = b :: inputs.drop (k + 1) := by
      rw [← hbk]
      exact List.drop_eq_getElem_cons hklt
    have hbmem : b ∈ inputs := by
      rw [← hbk]
      exact List.getElem_mem hklt
    have hcin1 : p.cin = some (menu_number b) :: typed (inputs.drop (k + 1)) := by
      rw [hcin, hdrop]
      rfl
    obtain ⟨p1, r, hiter, hr, hstate, _, hhead1⟩ :=
      main_iteration_typed p b (typed (inputs.drop (k + 1))) (h b hbmem) hcin1
    obtain ⟨r1, hr1, _, hbuy1⟩ := insert_command_logged_name p.state_instructions b
    have hrr : r1 = r := Option.some.inj (hr1.symm.trans hr)
    subst hrr
    obtain ⟨hzero, hname⟩ := hbuy1 hmoney hbuy
    refine ⟨p1, ?_, ?_, ?_⟩
    · rw [main_loop_succ, hloop]
      exact hiter
    · rw [hstate]
      exact hzero
    · rw [hhead1, hname]
      rfl

/-- Witness of `purchase_log_matches_purchases`: the user inserts 100 and 50
cents, buys Etirps, asks for the log and inserts 25 cents; after the first two
inputs the machine holds 150 cents, after the third it holds nothing and the
log holds the one entry "Etirps". -/
theorem purchase_log_matches_purchases_witness :
    (∀ i ∈ [M100, M050, ETIRPS, LOG_INPUT, M025], i ≠ NADA_INPUT) ∧
      2 ≤ [M100, M050, ETIRPS, LOG_INPUT, M025].length ∧
      (∃ p, main_loop 2 (main_init { datetime := fun _ => "", calls := 0 }
            (typed [M100, M050, ETIRPS, LOG_INPUT, M025])) = some p ∧
        run_commands { current_state := S000 }
            ([M100, M050, ETIRPS, LOG_INPUT, M025].take 2) = some p.state_instructions ∧
        p.io_handler.soda_logger.head =
          (spec_purchases { current_state := S000 }
            ([M100, M050, ETIRPS, LOG_INPUT, M025].take 2)).reverse ∧
        ∀ b, [M100, M050, ETIRPS, LOG_INPUT, M025][2]? = some b → b.is_buy = true →
          p.state_instructions.get_current_money = 150 →
          ∃ p1, main_loop (2 + 1) (main_init { datetime := fun _ => "", calls := 0 }
                (typed [M100, M050, ETIRPS, LOG_INPUT, M025])) = some p1 ∧
            p1.state_instructions.get_current_money = 0 ∧
            p1.io_handler.soda_logger.head =
              (if b = MEET then "Meet" else "Etirps") :: p.io_handler.soda_logger.head) ∧
      (main_loop 2 (main_init { datetime := fun _ => "", calls := 0 }
          (typed [M100, M050, ETIRPS, LOG_INPUT, M025]))).map
        (fun p => (p.state_instructions.current_state, p.io_handler.soda_logger.head)) =
          some (S150, []) ∧
      (main_loop 5 (main_init { datetime := fun _ => "", calls := 0 }
          (typed [M100, M050, ETIRPS, LOG_INPUT, M025]))).map
        (fun p => (p.state_instructions.current_state, p.io_handler.soda_logger.head)) =
          some (S025, ["Etirps"]) :=
  ⟨by decide, by decide,
    purchase_log_matches_purchases { datetime := fun _ => "", calls := 0 }
      [M100, M050, ETIRPS, LOG_INPUT, M025] 2 (by decide) (by decide),
    by rfl, by rfl⟩

end VendingMachine
